import Mathlib

/-
  Verification of the placeholder-substitution engine and workbook
  materializer of backend/run.py (CreotecTesda).

  Python strings are modelled as lists of characters, Python dicts as
  association lists whose lookup returns the first matching key (real
  dicts have unique keys, so well-formedness hypotheses ask for key
  nodup where it matters).  All definitions are executable.
-/

namespace Creotec


/-- Python strings are modelled as lists of characters. -/
abbrev PyStr := List Char

/-- Python str.upper, ASCII model. -/
def pyUpper (s : PyStr) : PyStr := s.map Char.toUpper

/-- Python str.lower, ASCII model. -/
def pyLower (s : PyStr) : PyStr := s.map Char.toLower

/-- Python str.strip: leading and trailing whitespace removed. -/
def pyStrip (s : PyStr) : PyStr :=
  ((s.dropWhile Char.isWhitespace).reverse.dropWhile Char.isWhitespace).reverse

/-- Decimal digits of n, most significant first (empty for 0); structural
fuel so that the kernel can evaluate it. -/
def natToCharsAux : Nat → Nat → List Char
  | 0, _ => []
  | _ + 1, 0 => []
  | fuel + 1, n + 1 => natToCharsAux fuel ((n + 1) / 10) ++ [Nat.digitChar ((n + 1) % 10)]

/-- Python str(n) for a natural number. -/
def natToChars (n : Nat) : List Char := if n = 0 then ['0'] else natToCharsAux (n + 1) n

/-- Python str(n) for an integer. -/
def intToChars (n : Int) : List Char :=
  if n < 0 then '-' :: natToChars (-n).toNat else natToChars n.toNat

/-- Python substring test: needle in hay (contiguous occurrence). -/
def pyInStr (needle : List Char) : List Char → Bool
  | [] => needle.isEmpty
  | c :: rest => needle.isPrefixOf (c :: rest) || pyInStr needle rest

/-- Python values as they appear in data rows and worksheet cells. -/
inductive PyVal where
  | vNone
  | vStr (s : PyStr)
  | vInt (n : Int)
deriving DecidableEq

/-- Python str(v), verbatim stringification. -/
def pyValStr : PyVal → PyStr
  | .vNone => "None".data
  | .vStr s => s
  | .vInt n => intToChars n

/-- First-match association-list lookup: Python dict lookup. -/
def lookupA {κ α : Type} [DecidableEq κ] : List (κ × α) → κ → Option α
  | [], _ => none
  | p :: rest, k => if p.1 = k then some p.2 else lookupA rest k

/-- Python d[k] = v: replace the binding in place, or append a new one. -/
def assocSet {κ α : Type} [DecidableEq κ] : List (κ × α) → κ → α → List (κ × α)
  | [], k, v => [(k, v)]
  | p :: rest, k, v => if p.1 = k then (k, v) :: rest else p :: assocSet rest k v

/-- Python dict update with copy: d = dict(a); d.update(b); the second
dict is layered on top of the first.  This is the shape of both
mapping = DEFAULT_MAPPING.copy(); mapping.update(parsed) and of
combined_row = dict-merge(row_dict, grade_row) in run.py. -/
def dictUpdate {κ α : Type} [DecidableEq κ] (a b : List (κ × α)) : List (κ × α) :=
  b.foldl (fun d p => assocSet d p.1 p.2) a

/-- Rows are dicts from column name to value. -/
abbrev Row := List (PyStr × PyVal)

/-- A mapping value is either a flat column name or a per-context
dictionary of column names (run.py: isinstance(mp, dict)). -/
inductive MapVal where
  | flat (col : PyStr)
  | ctx (d : List (PyStr × PyStr))
deriving DecidableEq

/-- The caller-supplied placeholder mapping. -/
abbrev Mapping := List (PyStr × MapVal)

/-- run.py format_value: empty string for None, str(val) otherwise. -/
def format_value : PyVal → PyStr
  | .vNone => []
  | v => pyValStr v

/-- The context label computed once per cell at the top of
replace_placeholders_in_cell (run.py lines 36-47). -/
def cellContext (text : PyStr) : Option PyStr :=
  if pyInStr ("YEAR LAST ATTENDED".data) (pyUpper text) then
    if pyInStr ("ELEMENTARY".data) (pyUpper text) then some ("ELEMENTARY".data)
    else if pyInStr ("SECONDARY".data) (pyUpper text) then some ("SECONDARY".data)
    else if pyInStr ("TERTIARY".data) (pyUpper text) then some ("TERTIARY".data)
    else none
  else none

/-- mp.get(context) where context may be None: a Python dict with string
keys never contains None, so a None context looks up to nothing. -/
def ctxGet (d : List (PyStr × PyStr)) : Option PyStr → Option PyStr
  | none => none
  | some k => lookupA d k

/-- Python `x or y` on optional strings: None and the empty string are
falsy, anything else is returned unchanged. -/
def pyOrStr (a b : Option PyStr) : Option PyStr :=
  match a with
  | some s => if s = [] then b else some s
  | none => b

/-- Column-name resolution for one token (run.py lines 50-55):
mapping.get(key, key); context dictionaries resolve through
mp.get(context) or mp.get("DEFAULT"). -/
def resolveCol (context : Option PyStr) (mapping : Mapping) (key : PyStr) : Option PyStr :=
  match lookupA mapping key with
  | none => some key
  | some (.flat c) => some c
  | some (.ctx d) => pyOrStr (ctxGet d context) (lookupA d ("DEFAULT".data))

/-- rowdict.get(col, "") where col may be None (string-keyed dict, so a
None column finds nothing and yields the default ""). -/
def rowGetD (row : Row) : Option PyStr → PyVal
  | none => .vStr []
  | some c => (lookupA row c).getD (.vStr [])

/-- Full body of repl for one token (run.py lines 49-57). -/
def resolveToken (context : Option PyStr) (mapping : Mapping) (row : Row) (key : PyStr) : PyStr :=
  format_value (rowGetD row (resolveCol context mapping key))

/-- PLACEHOLDER_RE.sub: scan left to right; at each open brace the
token is the maximal run of non-close-brace characters; a match needs a
nonempty run followed by a close brace; non-matching text is copied
unchanged.  Structural fuel (initialised to the text length) keeps the
definition kernel-evaluable. -/
def pySubAux (repl : PyStr → PyStr) : Nat → List Char → List Char
  | 0, l => l
  | _ + 1, [] => []
  | fuel + 1, c :: rest =>
    if c = '\x7b' then
      match rest.dropWhile (fun x => x ≠ '\x7d') with
      | [] => c :: pySubAux repl fuel rest
      | _ :: rest2 =>
        let key := rest.takeWhile (fun x => x ≠ '\x7d')
        if key = [] then c :: pySubAux repl fuel rest
        else repl key ++ pySubAux repl fuel rest2
    else c :: pySubAux repl fuel rest

/-- PLACEHOLDER_RE.sub(repl, text). -/
def placeholderSub (repl : PyStr → PyStr) (l : List Char) : List Char := pySubAux repl l.length l

/-- run.py replace_placeholders_in_cell: the context is computed once
from the whole cell text and the same context is used for every token. -/
def replace_placeholders_in_cell (text : PyStr) (mapping : Mapping) (rowdict : Row) : PyStr :=
  placeholderSub (resolveToken (cellContext text) mapping rowdict) text

/-- run.py lines 163-165: first mapping key whose upper-case form is
NAME, defaulting to the literal NAME. -/
def nameKey : Mapping → PyStr
  | [] => "NAME".data
  | p :: rest => if pyUpper p.1 = "NAME".data then p.1 else nameKey rest

/-- col_for_name = mapping.get(name_key, name_key). -/
def colForName (mapping : Mapping) : MapVal :=
  (lookupA mapping (nameKey mapping)).getD (.flat (nameKey mapping))

/-- The synthetic label Row {idx+1} (iterrows index is the default
0-based range index, so idx+1 is the 1-based row number). -/
def rowLabel (idx : Nat) : PyStr := "Row ".data ++ natToChars (idx + 1)

/-- candidate_name = row_dict.get(col_for_name, f"Row {idx+1}").  A
context-dictionary mapping value makes col_for_name an (unhashable)
dict, on which Python dict.get raises TypeError; that is modelled as an
error. -/
def candidateName (mapping : Mapping) (row : Row) (idx : Nat) : Except PyStr PyVal :=
  match colForName mapping with
  | .flat c => .ok ((lookupA row c).getD (.vStr (rowLabel idx)))
  | .ctx _ => .error ("TypeError: unhashable type: dict".data)

/- ----------------------------------------------------------------
   C1: combined-row merge.
   ---------------------------------------------------------------- -/

/-- combined_row = dict-merge with row_dict first and grade_row second
(run.py line 172). -/
def combinedRow (detail grade : Row) : Row := dictUpdate detail grade

/- ----------------------------------------------------------------
   C4: sheet-title sanitation and deduplication.
   ---------------------------------------------------------------- -/

/-- The seven characters replaced by '-' in sheet titles. -/
def badTitleChar (c : Char) : Bool :=
  c = '[' || c = ']' || c = ':' || c = '*' || c = '?' || c = '/' || c = '\\'

/-- Title sanitation (run.py lines 68-71): strip, empty becomes Row,
replace forbidden characters by '-', truncate to 31, empty becomes Row. -/
def cleanTitle (s : PyStr) : PyStr :=
  let t1 := if pyStrip s = [] then "Row".data else pyStrip s
  let t2 := t1.map (fun c => if badTitleChar c then '-' else c)
  let t3 := t2.take 31
  if t3 = [] then "Row".data else t3

/-- Python s[:k] slicing where the bound may be negative. -/
def pySliceTo (l : PyStr) (k : Int) : PyStr :=
  if 0 ≤ k then l.take k.toNat else l.take ((l.length : Int) + k).toNat

/-- The disambiguator suffix f" ({i})". -/
def sheetSuffix (i : Nat) : PyStr := ' ' :: '(' :: (natToChars i ++ [')'])

/-- One disambiguated candidate (run.py line 76): the base is truncated
with Python slicing so the suffixed title fits 31 characters when the
suffix itself is short enough. -/
def sheetCand (orig : PyStr) (i : Nat) : PyStr :=
  if 31 < orig.length + (sheetSuffix i).length then
    pySliceTo orig (31 - ((sheetSuffix i).length : Int)) ++ sheetSuffix i
  else orig ++ sheetSuffix i

/-- The while-loop of _safe_sheet_title and of openpyxl's duplicate-name
avoidance: first candidate f i, f (i+1), ... not in used.  Structural
fuel; all callers pass enough fuel for the scan to find a fresh name
(see exists_fresh). -/
def freshLoop (f : Nat → PyStr) (used : List PyStr) : Nat → Nat → PyStr
  | i, 0 => f i
  | i, fuel + 1 => if f i ∈ used then freshLoop f used (i + 1) fuel else f i

/-- run.py _safe_sheet_title, without the used.add side effect (the
caller conses the result onto used). -/
def safe_sheet_title (s : PyStr) (used : List PyStr) : PyStr :=
  if cleanTitle s ∈ used then freshLoop (sheetCand (cleanTitle s)) used 2 (used.length + 1)
  else cleanTitle s

/-- The per-request title-assignment loop of generate_excel: each detail
row's candidate name receives a title, which is recorded in the used
set. -/
def assignAux : List PyStr → List PyStr → List PyStr
  | [], _ => []
  | n :: ns, used =>
    let t := safe_sheet_title n used
    t :: assignAux ns (t :: used)

/-- Titles assigned across one request, in row order. -/
def assignTitles (names : List PyStr) : List PyStr := assignAux names []

/-- Ranges of consecutive naturals (s, s+1, ..., s+n-1). -/
def natRange (s : Nat) : Nat → List Nat
  | 0 => []
  | n + 1 => s :: natRange (s + 1) n

/- ----------------------------------------------------------------
   Workbook model (openpyxl surface used by run.py).
   ---------------------------------------------------------------- -/

/-- A worksheet: id models Python object identity, title the sheet
name, merges the string forms of merged ranges, cells the non-None
cell values keyed by 1-based (row, column), with the max_row/max_column
bounds. -/
structure Sheet where
  id : Nat
  title : PyStr
  merges : List PyStr
  cells : List ((Nat × Nat) × PyVal)
  maxRow : Nat
  maxCol : Nat

/-- A workbook: ordered sheets plus a fresh-id counter. -/
structure Workbook where
  sheets : List Sheet
  nextId : Nat

def sheetTitles (wb : Workbook) : List PyStr := wb.sheets.map Sheet.title

/-- openpyxl's duplicate-name avoidance: every title assignment
(copy_worksheet, create_sheet, the title setter) goes through it, so a
workbook never holds two sheets with the same title; a clashing value
receives a numeric suffix that makes it unique. -/
def avoidDuplicateName (names : List PyStr) (value : PyStr) : PyStr :=
  if value ∈ names then freshLoop (fun j => value ++ natToChars j) names 1 (names.length + 1)
  else value

/-- wb.copy_worksheet(src): a structural copy appended at the end,
initially titled "{src.title} Copy" through the deduplicating setter. -/
def copy_worksheet (wb : Workbook) (src : Sheet) : Workbook :=
  { sheets := wb.sheets ++
      [{ src with
          id := wb.nextId,
          title := avoidDuplicateName (sheetTitles wb) (src.title ++ (" Copy".data)) }],
    nextId := wb.nextId + 1 }

/-- ws.title = t: openpyxl checks the proposed title against the other
sheets' titles and renames on clash. -/
def setSheetTitle (wb : Workbook) (sid : Nat) (t : PyStr) : Workbook :=
  let t2 := avoidDuplicateName ((wb.sheets.filter (fun s2 => s2.id ≠ sid)).map Sheet.title) t
  { wb with sheets := wb.sheets.map (fun s => if s.id = sid then { s with title := t2 } else s) }

/-- wb.create_sheet(title=t). -/
def create_sheet (wb : Workbook) (t : PyStr) : Workbook :=
  { sheets := wb.sheets ++
      [{ id := wb.nextId,
         title := avoidDuplicateName (sheetTitles wb) t,
         merges := [], cells := [], maxRow := 1, maxCol := 1 }],
    nextId := wb.nextId + 1 }

/-- wb.remove(ws): removal by object identity. -/
def removeSheet (wb : Workbook) (sid : Nat) : Workbook :=
  { wb with sheets := wb.sheets.filter (fun s => s.id ≠ sid) }

def cellLookup (s : Sheet) (rc : Nat × Nat) : Option PyVal := lookupA s.cells rc

/-- One fallback-copy step: ws.cell(row=r, column=c, value=v) when the
template holds a non-None value at that coordinate, nothing otherwise. -/
def setStep {κ α : Type} [DecidableEq κ] (f : κ → Option α)
    (m : List (κ × α)) (k : κ) : List (κ × α) :=
  match f k with
  | some v => assocSet m k v
  | none => m

/-- ws.merge_cells(str(rng)), iterated. -/
def appendStep (acc : List PyStr) (r : PyStr) : List PyStr := acc ++ [r]

/-- The coordinates scanned by the fallback copy loop: rows 1..maxR
crossed with columns 1..maxC. -/
def gridPairs (maxR maxC : Nat) : List (Nat × Nat) :=
  (natRange 1 maxR).foldr (fun r acc => ((natRange 1 maxC).map (fun c => (r, c))) ++ acc) []

/-- run.py _copy_template_sheet_with_fallback.  primaryFails models
copy_worksheet raising an arbitrary exception; the except-branch then
runs: create a sheet under the requested title, re-create every merged
range, and copy every non-None cell of the grid by coordinate.  Both
branches are total functions: the fallback never raises. -/
def copy_template_sheet_with_fallback (wb : Workbook) (tpl : Sheet) (newTitle : PyStr)
    (primaryFails : Bool) : Workbook :=
  if primaryFails then
    let wb1 := create_sheet wb newTitle
    { wb1 with sheets := wb1.sheets.map (fun s =>
        if s.id = wb.nextId then
          { s with merges := tpl.merges.foldl appendStep s.merges,
                   cells := (gridPairs tpl.maxRow tpl.maxCol).foldl
                     (setStep (cellLookup tpl)) s.cells,
                   maxRow := tpl.maxRow, maxCol := tpl.maxCol }
        else s) }
  else
    setSheetTitle (copy_worksheet wb tpl) wb.nextId newTitle

/-- run.py replace_placeholders_in_worksheet on a single cell value:
string cells containing both braces are resolved, everything else is
left as is. -/
def replaceCellVal (mapping : Mapping) (row : Row) (v : PyVal) : PyVal :=
  match v with
  | .vStr s =>
    if '\x7b' ∈ s ∧ '\x7d' ∈ s then .vStr (replace_placeholders_in_cell s mapping row)
    else .vStr s
  | v => v

def replace_placeholders_in_worksheet (ws : Sheet) (mapping : Mapping) (row : Row) : Sheet :=
  { ws with cells := ws.cells.map (fun p => (p.1, replaceCellVal mapping row p.2)) }

def replaceInWorkbook (wb : Workbook) (sid : Nat) (mapping : Mapping) (row : Row) : Workbook :=
  { wb with sheets := wb.sheets.map (fun s =>
      if s.id = sid then replace_placeholders_in_worksheet s mapping row else s) }

/- ----------------------------------------------------------------
   The /api/generate handler.
   ---------------------------------------------------------------- -/

/-- A pandas DataFrame after read_excel(dtype=str) and fillna(""):
column list plus one dict per row. -/
structure DataFrame where
  cols : List PyStr
  rows : List Row

/-- df row access inside the grade filter (a dataframe row carries
every column; a missing entry reads as the fill value ""). -/
def dfGet (r : Row) (c : PyStr) : PyVal := (lookupA r c).getD (.vStr [])

/-- The uploaded file: its name and what pd.read_excel returns on it
(the parse outcome is carried by the request, the parser itself being
an external library). -/
structure UploadedFile where
  filename : PyStr
  parsed : Except PyStr (List (PyStr × DataFrame))

/-- A generate request: the optional file part and the optional mapping
form field with the outcome json.loads would produce on it. -/
structure GenRequest where
  file : Option UploadedFile
  mappingForm : Option (PyStr × Except PyStr Mapping)

/-- Server-side state: template presence, what load_workbook returns,
and an oracle saying on which row index copy_worksheet would raise. -/
structure ServerEnv where
  templateExists : Bool
  templateWb : Except PyStr Workbook
  copyFails : Nat → Bool

/-- The handler outcome: a JSON error body with a status, a served
workbook file, or an uncaught exception escaping the handler. -/
inductive Response where
  | error (status : Nat) (msg : PyStr)
  | fileOut (wb : Workbook)
  | raised (msg : PyStr)

/-- Python str.endswith. -/
def pyEndsWith (s suffix : PyStr) : Bool := suffix.reverse.isPrefixOf s.reverse

def hasExcelExt (filename : PyStr) : Bool :=
  pyEndsWith (pyLower filename) (".xlsx".data) || pyEndsWith (pyLower filename) (".xlsm".data)

/-- run.py lines 121-126: mapping = DEFAULT_MAPPING.copy(); a present,
non-blank form field must parse as JSON (else 400) and is layered on
top of the copy with dict.update. -/
def requestMapping (dflt : Mapping) (form : Option (PyStr × Except PyStr Mapping)) :
    Except PyStr Mapping :=
  match form with
  | none => .ok dflt
  | some (raw, parsed) =>
    if pyStrip raw = [] then .ok dflt
    else
      match parsed with
      | .ok m => .ok (dictUpdate dflt m)
      | .error e => .error e

structure LoopState where
  wb : Workbook
  used : List PyStr

/-- One iteration of the fill loop (run.py lines 159-177): resolve the
name column (a dict-valued mapping raises TypeError), read the
candidate name, pick a deduplicated title, clone the template sheet,
filter the grade rows (a missing grade column raises KeyError), merge
detail over grade, and substitute placeholders on the clone. -/
def processRow (mapping : Mapping) (grades : DataFrame) (tpl : Sheet) (fails : Bool)
    (st : LoopState) (idx : Nat) (row : Row) : Except PyStr LoopState :=
  match colForName mapping with
  | .ctx _ => .error ("TypeError: unhashable type: dict".data)
  | .flat c =>
    let cand := (lookupA row c).getD (.vStr (rowLabel idx))
    let title := safe_sheet_title (pyValStr cand) st.used
    let wb1 := copy_template_sheet_with_fallback st.wb tpl title fails
    if c ∈ grades.cols then
      let grade_row : Row :=
        match grades.rows.filter (fun r => dfGet r c = cand) with
        | [] => []
        | g :: _ => g
      .ok { wb := replaceInWorkbook wb1 st.wb.nextId mapping (dictUpdate row grade_row),
            used := title :: st.used }
    else .error ("KeyError: name column missing from grades sheet".data)

def processRows (mapping : Mapping) (grades : DataFrame) (tpl : Sheet) (oracle : Nat → Bool) :
    LoopState → Nat → List Row → Except PyStr LoopState
  | st, _, [] => .ok st
  | st, idx, r :: rs =>
    match processRow mapping grades tpl (oracle idx) st idx r with
    | .error e => .error e
    | .ok st2 => processRows mapping grades tpl oracle st2 (idx + 1) rs

/-- run.py generate_excel as a pure function of the module-level
DEFAULT_MAPPING, the request and the server environment; the second
component is DEFAULT_MAPPING after the request (the handler only ever
copies it). -/
def generate_excel (DEFAULT_MAPPING : Mapping) (req : GenRequest) (env : ServerEnv) :
    Response × Mapping :=
  match req.file with
  | none => (.error 400 ("No file part".data), DEFAULT_MAPPING)
  | some f =>
    if hasExcelExt f.filename = false then
      (.error 400 ("Please upload an .xlsx or .xlsm file".data), DEFAULT_MAPPING)
    else
      match requestMapping DEFAULT_MAPPING req.mappingForm with
      | .error e => (.error 400 ("Invalid mapping JSON: ".data ++ e), DEFAULT_MAPPING)
      | .ok mapping =>
        match f.parsed with
        | .error e => (.error 400 ("Could not read Excel: ".data ++ e), DEFAULT_MAPPING)
        | .ok xl =>
          match xl with
          | s1 :: s2 :: _ =>
            if s1.2.rows.isEmpty then
              (.error 400 ("Details sheet has no rows.".data), DEFAULT_MAPPING)
            else if env.templateExists = false then
              (.error 500 ("Template not found on server".data), DEFAULT_MAPPING)
            else
              match env.templateWb with
              | .error e => (.error 500 ("Could not open template: ".data ++ e), DEFAULT_MAPPING)
              | .ok base_wb =>
                match base_wb.sheets with
                | [] => (.error 500 ("Template has no worksheets.".data), DEFAULT_MAPPING)
                | tpl :: _ =>
                  match processRows mapping s2.2 tpl env.copyFails
                      { wb := base_wb, used := [] } 0 s1.2.rows with
                  | .error e => (.raised e, DEFAULT_MAPPING)
                  | .ok st => (.fileOut (removeSheet st.wb tpl.id), DEFAULT_MAPPING)
          | _ =>
            (.error 400
              ("Uploaded file must have at least 2 worksheets: details and grades.".data),
              DEFAULT_MAPPING)

/-- Invariant of the fallback cell loop: everything written so far
agrees with the template. -/
def SetInv {κ α : Type} [DecidableEq κ] (f : κ → Option α) (acc : List (κ × α)) : Prop :=
  ∀ q, lookupA acc q ≠ none → lookupA acc q = f q

/-- Concrete empty workbook used by witnesses. -/
def wbW : Workbook := { sheets := [], nextId := 0 }

/-- Concrete one-cell template sheet used by witnesses. -/
def tplW : Sheet where
  id := 5
  title := "T".data
  merges := ["A1:B2".data]
  cells := [((1, 1), PyVal.vStr ("v".data))]
  maxRow := 1
  maxCol := 1

/- ----------------------------------------------------------------
   C7: the template sheet never reaches the output.
   ---------------------------------------------------------------- -/

/-- Invariant carried through the fill loop: the template sheet is
present under its original identity and title, every other sheet's
title differs from the template's, and all sheet ids are below the
fresh-id counter. -/
def WbInv (tplId : Nat) (tplTitle : PyStr) (wb : Workbook) : Prop :=
  (∃ s ∈ wb.sheets, s.id = tplId ∧ s.title = tplTitle)
  ∧ (∀ s ∈ wb.sheets, s.id ≠ tplId → s.title ≠ tplTitle)
  ∧ (∀ s ∈ wb.sheets, s.id < wb.nextId)

/- Concrete one-row request used by the C7 witness. -/

def dfDetailsW : DataFrame :=
  { cols := ["NAME".data], rows := [[("NAME".data, PyVal.vStr ("Ana".data))]] }

def dfGradesW : DataFrame := { cols := ["NAME".data], rows := [] }

def tplSheetW : Sheet where
  id := 0
  title := "T".data
  merges := []
  cells := []
  maxRow := 1
  maxCol := 1

def twbW : Workbook := { sheets := [tplSheetW], nextId := 1 }

def reqW : GenRequest :=
  { file := some { filename := "a.xlsx".data,
                   parsed := .ok [("S1".data, dfDetailsW), ("S2".data, dfGradesW)] },
    mappingForm := none }

def envW : ServerEnv :=
  { templateExists := true, templateWb := .ok twbW, copyFails := fun _ => false }

def anaSheetW : Sheet where
  id := 1
  title := "Ana".data
  merges := []
  cells := []
  maxRow := 1
  maxCol := 1

def outW : Workbook := { sheets := [anaSheetW], nextId := 2 }

/- ----------------------------------------------------------------
   Theorems.
   ---------------------------------------------------------------- -/

/- ----------------------------------------------------------------
   Association-list lemmas shared by several claims.
   ---------------------------------------------------------------- -/

theorem lookupA_assocSet {κ α : Type} [DecidableEq κ] (l : List (κ × α)) (k : κ) (v : α)
    (q : κ) : lookupA (assocSet l k v) q = if k = q then some v else lookupA l q := by
  induction l with
  | nil => simp [assocSet, lookupA]
  | cons p rest ih =>
    obtain ⟨pk, pv⟩ := p
    by_cases hp : pk = k
    · subst hp
      by_cases hq : pk = q <;> simp [assocSet, lookupA, hq]
    · by_cases hq : pk = q
      · have hkq : ¬ k = q := fun h => hp (hq.trans h.symm)
        have hqk : ¬ q = k := fun h => hkq h.symm
        simp [assocSet, lookupA, hp, hq, hkq, hqk]
      · simp [assocSet, lookupA, hp, hq, ih]

theorem lookupA_eq_none_of_not_mem {κ α : Type} [DecidableEq κ] (l : List (κ × α)) (k : κ)
    (h : k ∉ l.map Prod.fst) : lookupA l k = none := by
  induction l with
  | nil => rfl
  | cons p rest ih =>
    simp only [List.map_cons, List.mem_cons] at h
    push_neg at h
    have hp : ¬ p.1 = k := fun hh => h.1 hh.symm
    simp [lookupA, hp, ih h.2]

theorem lookupA_dictUpdate {κ α : Type} [DecidableEq κ] (a b : List (κ × α))
    (hb : (b.map Prod.fst).Nodup) (q : κ) :
    lookupA (dictUpdate a b) q =
      match lookupA b q with
      | some v => some v
      | none => lookupA a q := by
  induction b generalizing a with
  | nil => simp [dictUpdate, lookupA]
  | cons p rest ih =>
    have hb' : (rest.map Prod.fst).Nodup := (List.nodup_cons.mp hb).2
    have hnot : p.1 ∉ rest.map Prod.fst := (List.nodup_cons.mp hb).1
    have step : dictUpdate a (p :: rest) = dictUpdate (assocSet a p.1 p.2) rest := by
      simp [dictUpdate, List.foldl_cons]
    rw [step, ih _ hb']
    by_cases hq : p.1 = q
    · subst hq
      have hrest : lookupA rest p.1 = none := lookupA_eq_none_of_not_mem rest p.1 hnot
      simp [lookupA, hrest, lookupA_assocSet]
    · have hskip : lookupA (p :: rest) q = lookupA rest q := by simp [lookupA, hq]
      rw [hskip]
      cases h : lookupA rest q with
      | some v => simp
      | none => simp [lookupA_assocSet, hq]

/-- C1 (amended): the combined row contains every key of both rows, and
on any key present in both, the GRADE row's value takes precedence —
the detail row is the base and the grade row is layered on top. -/
theorem C1_theorem (detail grade : Row) (hg : (grade.map Prod.fst).Nodup) (q : PyStr) :
    ((lookupA (combinedRow detail grade) q).isSome ↔
      (lookupA detail q).isSome ∨ (lookupA grade q).isSome)
    ∧ (∀ v, lookupA grade q = some v → lookupA (combinedRow detail grade) q = some v)
    ∧ (lookupA grade q = none → lookupA (combinedRow detail grade) q = lookupA detail q) := by
  have h := lookupA_dictUpdate detail grade hg q
  refine ⟨?_, ?_, ?_⟩
  · rw [combinedRow, h]
    cases hq : lookupA grade q <;> simp [hq]
  · intro v hv
    rw [combinedRow, h, hv]
  · intro hv
    rw [combinedRow, h, hv]

/-- C1 witness: concrete instance of the amended theorem. -/
theorem C1_witness :
    lookupA (combinedRow [("A".data, PyVal.vStr ("1".data))]
      [("A".data, PyVal.vStr ("2".data))]) ("A".data) = some (PyVal.vStr ("2".data)) :=
  (C1_theorem [("A".data, PyVal.vStr ("1".data))] [("A".data, PyVal.vStr ("2".data))]
    (by decide) ("A".data)).2.1 (PyVal.vStr ("2".data)) (by decide)

/-- C1 counterexample: with detail row A ↦ "1" and grade row A ↦ "2",
the combined row holds the grade value "2", not the detail value "1"
that the claim's detail-precedence reading demands. -/
theorem C1_counterexample :
    lookupA (combinedRow [("A".data, PyVal.vStr ("1".data))]
        [("A".data, PyVal.vStr ("2".data))]) ("A".data) = some (PyVal.vStr ("2".data))
    ∧ PyVal.vStr ("2".data) ≠ PyVal.vStr ("1".data) := by
  constructor
  · decide
  · decide

/- ----------------------------------------------------------------
   C2: per-cell context detection.
   ---------------------------------------------------------------- -/

/-- C2: the context label is derived from the whole cell text: it can
be set only when the text contains YEAR LAST ATTENDED case-insensitively,
in which case it is ELEMENTARY, SECONDARY or TERTIARY according to which
word occurs, tested in that priority order, and null when none occurs;
the cell is then rendered by substituting every token under that one
label. -/
theorem C2_theorem (text : PyStr) (mapping : Mapping) (row : Row) :
    (cellContext text = some ("ELEMENTARY".data) ↔
      (pyInStr ("YEAR LAST ATTENDED".data) (pyUpper text) = true
        ∧ pyInStr ("ELEMENTARY".data) (pyUpper text) = true))
    ∧ (cellContext text = some ("SECONDARY".data) ↔
      (pyInStr ("YEAR LAST ATTENDED".data) (pyUpper text) = true
        ∧ pyInStr ("ELEMENTARY".data) (pyUpper text) = false
        ∧ pyInStr ("SECONDARY".data) (pyUpper text) = true))
    ∧ (cellContext text = some ("TERTIARY".data) ↔
      (pyInStr ("YEAR LAST ATTENDED".data) (pyUpper text) = true
        ∧ pyInStr ("ELEMENTARY".data) (pyUpper text) = false
        ∧ pyInStr ("SECONDARY".data) (pyUpper text) = false
        ∧ pyInStr ("TERTIARY".data) (pyUpper text) = true))
    ∧ (cellContext text = none ↔
      (pyInStr ("YEAR LAST ATTENDED".data) (pyUpper text) = false
        ∨ (pyInStr ("ELEMENTARY".data) (pyUpper text) = false
            ∧ pyInStr ("SECONDARY".data) (pyUpper text) = false
            ∧ pyInStr ("TERTIARY".data) (pyUpper text) = false)))
    ∧ replace_placeholders_in_cell text mapping row
        = placeholderSub (resolveToken (cellContext text) mapping row) text := by
  by_cases h0 : pyInStr ("YEAR LAST ATTENDED".data) (pyUpper text) = true
  · by_cases h1 : pyInStr ("ELEMENTARY".data) (pyUpper text) = true
    · have hcc : cellContext text = some ("ELEMENTARY".data) := by
        unfold cellContext; rw [if_pos h0, if_pos h1]
      refine ⟨?_, ?_, ?_, ?_, rfl⟩ <;> rw [hcc] <;> simp [h0, h1]
    · by_cases h2 : pyInStr ("SECONDARY".data) (pyUpper text) = true
      · have hcc : cellContext text = some ("SECONDARY".data) := by
          unfold cellContext; rw [if_pos h0, if_neg h1, if_pos h2]
        refine ⟨?_, ?_, ?_, ?_, rfl⟩ <;> rw [hcc] <;> simp [h0, h1, h2]
      · by_cases h3 : pyInStr ("TERTIARY".data) (pyUpper text) = true
        · have hcc : cellContext text = some ("TERTIARY".data) := by
            unfold cellContext; rw [if_pos h0, if_neg h1, if_neg h2, if_pos h3]
          refine ⟨?_, ?_, ?_, ?_, rfl⟩ <;> rw [hcc] <;> simp [h0, h1, h2, h3]
        · have hcc : cellContext text = none := by
            unfold cellContext; rw [if_pos h0, if_neg h1, if_neg h2, if_neg h3]
          refine ⟨?_, ?_, ?_, ?_, rfl⟩ <;> rw [hcc] <;> simp [h0, h1, h2, h3]
  · have hcc : cellContext text = none := by
      unfold cellContext; rw [if_neg h0]
    refine ⟨?_, ?_, ?_, ?_, rfl⟩ <;> rw [hcc] <;> simp [h0]

/- ----------------------------------------------------------------
   C3: context-dictionary resolution.
   ---------------------------------------------------------------- -/

/-- C3 (amended): for a token mapped to a context dictionary, the
column is the context entry whenever that entry exists and is
non-empty; if the context is absent, has no entry, or its entry is the
empty string (falsy in Python), resolution falls back to the DEFAULT
entry; when on top of that DEFAULT is missing, the token resolves to no
column and yields the empty string. -/
theorem C3_theorem (context : Option PyStr) (mapping : Mapping) (row : Row) (key : PyStr)
    (d : List (PyStr × PyStr)) (hm : lookupA mapping key = some (.ctx d)) :
    ctxGet d none = none
    ∧ (∀ col, ctxGet d context = some col → col ≠ [] →
        resolveCol context mapping key = some col)
    ∧ ((ctxGet d context = none ∨ ctxGet d context = some []) →
        resolveCol context mapping key = lookupA d ("DEFAULT".data))
    ∧ ((ctxGet d context = none ∨ ctxGet d context = some []) →
        lookupA d ("DEFAULT".data) = none →
        resolveCol context mapping key = none
          ∧ resolveToken context mapping row key = []) := by
  refine ⟨rfl, ?_, ?_, ?_⟩
  · intro col hcol hne
    simp [resolveCol, hm, pyOrStr, hcol, hne]
  · intro hfall
    rcases hfall with h | h <;> simp [resolveCol, hm, pyOrStr, h]
  · intro hfall hdef
    have hcol : resolveCol context mapping key = none := by
      rcases hfall with h | h <;> simp [resolveCol, hm, pyOrStr, h, hdef]
    exact ⟨hcol, by simp [resolveToken, hcol, rowGetD, format_value, pyValStr]⟩

/-- C3 witness: a non-empty ELEMENTARY entry is selected directly. -/
theorem C3_witness :
    resolveCol (some ("ELEMENTARY".data))
      [("K".data, MapVal.ctx [("ELEMENTARY".data, "E".data)])] ("K".data)
      = some ("E".data) :=
  (C3_theorem (some ("ELEMENTARY".data))
      [("K".data, MapVal.ctx [("ELEMENTARY".data, "E".data)])] [] ("K".data)
      [("ELEMENTARY".data, "E".data)] (by decide)).2.1 ("E".data) (by decide) (by decide)

/-- C3 counterexample: the dictionary maps ELEMENTARY to the empty
string (an entry that exists for the current label) and DEFAULT to D;
the row binds the empty column name to x and D to y.  The claim as
stated selects the ELEMENTARY entry and yields x; the code's truthiness
test skips the empty entry, falls back to DEFAULT and yields y. -/
theorem C3_counterexample :
    resolveToken (some ("ELEMENTARY".data))
        [("K".data, MapVal.ctx [("ELEMENTARY".data, ([] : PyStr)), ("DEFAULT".data, "D".data)])]
        [(([] : PyStr), PyVal.vStr ("x".data)), ("D".data, PyVal.vStr ("y".data))]
        ("K".data) = "y".data
    ∧ ("y".data : PyStr) ≠ "x".data := by
  constructor
  · decide
  · decide

/- ----------------------------------------------------------------
   C5: missing columns and value formatting.
   ---------------------------------------------------------------- -/

/-- C5: a token whose resolved column is absent from the row — or which
resolves to no column at all — substitutes to the empty string (the
model is total, so resolution never raises); None formats to the empty
string and every other value to its verbatim string form. -/
theorem C5_theorem (context : Option PyStr) (mapping : Mapping) (row : Row) (key : PyStr) :
    (resolveCol context mapping key = none → resolveToken context mapping row key = [])
    ∧ (∀ c, resolveCol context mapping key = some c → lookupA row c = none →
        resolveToken context mapping row key = [])
    ∧ format_value .vNone = []
    ∧ (∀ v, v ≠ PyVal.vNone → format_value v = pyValStr v) := by
  refine ⟨?_, ?_, rfl, ?_⟩
  · intro h
    simp [resolveToken, h, rowGetD, format_value, pyValStr]
  · intro c hc habs
    simp [resolveToken, hc, rowGetD, habs, format_value, pyValStr]
  · intro v hv
    cases v with
    | vNone => exact absurd rfl hv
    | vStr s => rfl
    | vInt n => rfl

/-- C5 witness: an unmapped key whose identity column is missing from
the row yields the empty string. -/
theorem C5_witness : resolveToken none [] [] ("K".data) = [] :=
  (C5_theorem none [] [] ("K".data)).2.1 ("K".data) (by decide) (by decide)

/- ----------------------------------------------------------------
   C6: candidate name for the sheet title.
   ---------------------------------------------------------------- -/

/-- C6 (amended): the name is read from the column that the mapping
assigns to the first key case-insensitively equal to NAME (the literal
NAME when no such key exists); the synthetic Row {idx+1} label is used
exactly when that column is missing from the row — a present-but-empty
value is used as is. -/
theorem C6_theorem (mapping : Mapping) (row : Row) (idx : Nat) :
    ((∀ p, p ∈ mapping → pyUpper p.1 ≠ "NAME".data) → nameKey mapping = "NAME".data)
    ∧ (nameKey mapping = "NAME".data
        ∨ (pyUpper (nameKey mapping) = "NAME".data
            ∧ (lookupA mapping (nameKey mapping)).isSome = true))
    ∧ (∀ c, colForName mapping = .flat c → lookupA row c = none →
        candidateName mapping row idx = .ok (.vStr (rowLabel idx)))
    ∧ (∀ c v, colForName mapping = .flat c → lookupA row c = some v →
        candidateName mapping row idx = .ok v) := by
  refine ⟨?_, ?_, ?_, ?_⟩
  · intro h
    induction mapping with
    | nil => rfl
    | cons p rest ih =>
      have hp := h p (List.mem_cons_self p rest)
      simp [nameKey, hp]
      exact ih (fun q hq => h q (List.mem_cons_of_mem p hq))
  · induction mapping with
    | nil => exact Or.inl rfl
    | cons p rest ih =>
      by_cases hp : pyUpper p.1 = "NAME".data
      · right
        refine ⟨by simp [nameKey, hp], ?_⟩
        simp [nameKey, hp, lookupA]
      · rcases ih with h | h
        · left
          simp [nameKey, hp, h]
        · right
          refine ⟨by simp [nameKey, hp, h.1], ?_⟩
          have hk : nameKey (p :: rest) = nameKey rest := by simp [nameKey, hp]
          rw [hk]
          by_cases hq : p.1 = nameKey rest
          · simp [lookupA, hq]
          · simp [lookupA, hq, h.2]
  · intro c hc habs
    simp [candidateName, hc, habs]
  · intro c v hc hv
    simp [candidateName, hc, hv]

/-- C6 witness: a lower-case name key selects its column; with an empty
row the synthetic Row 1 label is produced. -/
theorem C6_witness :
    candidateName [("name".data, MapVal.flat ("Full Name".data))] [] 0
      = .ok (.vStr (rowLabel 0)) :=
  (C6_theorem [("name".data, MapVal.flat ("Full Name".data))] [] 0).2.2.1
    ("Full Name".data) (by decide) (by decide)

/-- C6 counterexample: with an empty mapping the NAME column exists but
holds the empty string; the code keeps the empty value instead of
falling back to the synthetic Row 1 label the claim demands. -/
theorem C6_counterexample :
    candidateName [] [("NAME".data, PyVal.vStr [])] 0 = .ok (PyVal.vStr [])
    ∧ PyVal.vStr [] ≠ PyVal.vStr (rowLabel 0) := by
  constructor
  · rfl
  · decide

theorem mem_natRange (s n a : Nat) : a ∈ natRange s n ↔ s ≤ a ∧ a < s + n := by
  induction n generalizing s with
  | zero => simp [natRange]
  | succ n ih =>
    simp only [natRange, List.mem_cons, ih]
    omega

/- Decimal-representation lemmas. -/

theorem natToCharsAux_eq_nil (fuel n : Nat) (h : n < fuel) :
    natToCharsAux fuel n = [] ↔ n = 0 := by
  match fuel, n with
  | fuel + 1, 0 => simp [natToCharsAux]
  | fuel + 1, n + 1 => simp [natToCharsAux]

theorem natToChars_ne_nil (n : Nat) : natToChars n ≠ [] := by
  unfold natToChars
  split
  · simp
  · rename_i h
    match n, h with
    | n + 1, _ => simp [natToCharsAux]

theorem natToCharsAux_mem_digit (fuel n : Nat) :
    ∀ c ∈ natToCharsAux fuel n, ∃ d, d < 10 ∧ c = Nat.digitChar d := by
  induction fuel generalizing n with
  | zero => simp [natToCharsAux]
  | succ fuel ih =>
    cases n with
    | zero => simp [natToCharsAux]
    | succ m =>
      intro c hc
      simp only [natToCharsAux, List.mem_append, List.mem_singleton] at hc
      rcases hc with hc | hc
      · exact ih _ c hc
      · exact ⟨(m + 1) % 10, Nat.mod_lt _ (by norm_num), hc⟩

theorem natToChars_mem_digit (n : Nat) :
    ∀ c ∈ natToChars n, ∃ d, d < 10 ∧ c = Nat.digitChar d := by
  unfold natToChars
  split
  · intro c hc
    simp only [List.mem_singleton] at hc
    exact ⟨0, by norm_num, hc⟩
  · exact natToCharsAux_mem_digit _ _

theorem digitChar_ne_space : ∀ d, d < 10 → Nat.digitChar d ≠ ' ' := by decide

theorem digitChar_inj : ∀ d, d < 10 → ∀ e, e < 10 → Nat.digitChar d = Nat.digitChar e → d = e := by
  decide

theorem append_singleton_inj {α : Type} (a b : List α) (x y : α)
    (h : a ++ [x] = b ++ [y]) : a = b ∧ x = y := by
  have h2 : x :: a.reverse = y :: b.reverse := by
    simpa using congrArg List.reverse h
  injection h2 with hx hr
  exact ⟨List.reverse_injective hr, hx⟩

theorem natToCharsAux_inj (fuel fuel2 n m : Nat) (hn : n < fuel) (hm : m < fuel2)
    (h : natToCharsAux fuel n = natToCharsAux fuel2 m) : n = m := by
  induction fuel generalizing fuel2 n m with
  | zero => omega
  | succ fuel ih =>
    match fuel2, hm with
    | fuel2 + 1, hm =>
      cases n with
      | zero =>
        cases m with
        | zero => rfl
        | succ m2 => simp [natToCharsAux] at h
      | succ n2 =>
        cases m with
        | zero => simp [natToCharsAux] at h
        | succ m2 =>
          simp only [natToCharsAux] at h
          obtain ⟨h1, h2⟩ := append_singleton_inj _ _ _ _ h
          have hd : (n2 + 1) % 10 = (m2 + 1) % 10 :=
            digitChar_inj _ (Nat.mod_lt _ (by norm_num)) _ (Nat.mod_lt _ (by norm_num)) h2
          have hq : (n2 + 1) / 10 = (m2 + 1) / 10 := by
            apply ih fuel2 _ _ ?_ ?_ h1
            · have := Nat.div_lt_self (Nat.succ_pos n2) (show 1 < 10 by norm_num)
              omega
            · have := Nat.div_lt_self (Nat.succ_pos m2) (show 1 < 10 by norm_num)
              omega
          have e1 := Nat.div_add_mod (n2 + 1) 10
          have e2 := Nat.div_add_mod (m2 + 1) 10
          omega

theorem natToChars_inj (n m : Nat) (h : natToChars n = natToChars m) : n = m := by
  by_cases hn : n = 0 <;> by_cases hm : m = 0
  · omega
  · exfalso
    subst hn
    unfold natToChars at h
    rw [if_pos rfl, if_neg hm] at h
    match m, hm with
    | m + 1, _ =>
      simp only [natToCharsAux] at h
      have h0 : ([] : List Char) ++ ['0'] = ['0'] := rfl
      rw [← h0] at h
      obtain ⟨h1, h2⟩ := append_singleton_inj _ _ _ _ h
      have hnil : (m + 1) / 10 = 0 := by
        rw [← natToCharsAux_eq_nil (m + 1) ((m + 1) / 10)]
        · exact h1.symm
        · have := Nat.div_lt_self (Nat.succ_pos m) (show 1 < 10 by norm_num)
          omega
      have hd : (m + 1) % 10 = 0 :=
        digitChar_inj _ (Nat.mod_lt _ (by norm_num)) 0 (by norm_num) h2.symm
      have := Nat.div_add_mod (m + 1) 10
      omega
  · exfalso
    subst hm
    unfold natToChars at h
    rw [if_pos rfl, if_neg hn] at h
    match n, hn with
    | n + 1, _ =>
      simp only [natToCharsAux] at h
      have h0 : ([] : List Char) ++ ['0'] = ['0'] := rfl
      rw [← h0] at h
      obtain ⟨h1, h2⟩ := append_singleton_inj _ _ _ _ h
      have hnil : (n + 1) / 10 = 0 := by
        rw [← natToCharsAux_eq_nil (n + 1) ((n + 1) / 10)]
        · exact h1
        · have := Nat.div_lt_self (Nat.succ_pos n) (show 1 < 10 by norm_num)
          omega
      have hd : (n + 1) % 10 = 0 :=
        digitChar_inj _ (Nat.mod_lt _ (by norm_num)) 0 (by norm_num) h2
      have := Nat.div_add_mod (n + 1) 10
      omega
  · unfold natToChars at h
    rw [if_neg hn, if_neg hm] at h
    exact natToCharsAux_inj _ _ _ _ (Nat.lt_succ_self n) (Nat.lt_succ_self m) h

theorem natToCharsAux_length_le (fuel n k : Nat) (hf : n < fuel) (h : n < 10 ^ k) :
    (natToCharsAux fuel n).length ≤ k := by
  induction fuel generalizing n k with
  | zero => simp [natToCharsAux]
  | succ fuel ih =>
    cases n with
    | zero => simp [natToCharsAux]
    | succ m =>
      cases k with
      | zero => simp at h
      | succ k2 =>
        simp only [natToCharsAux, List.length_append, List.length_cons, List.length_nil]
        have hq : (m + 1) / 10 < 10 ^ k2 := by
          apply Nat.div_lt_of_lt_mul
          calc m + 1 < 10 ^ (k2 + 1) := h
          _ = 10 * 10 ^ k2 := by ring
        have hfu : (m + 1) / 10 < fuel := by
          have := Nat.div_lt_self (Nat.succ_pos m) (show 1 < 10 by norm_num)
          omega
        have := ih ((m + 1) / 10) k2 hfu hq
        omega

theorem natToCharsAux_length_gt (fuel n k : Nat) (hf : n < fuel) (h : 10 ^ k ≤ n) :
    k < (natToCharsAux fuel n).length := by
  induction fuel generalizing n k with
  | zero => omega
  | succ fuel ih =>
    cases n with
    | zero =>
      have : 0 < 10 ^ k := Nat.pos_pow_of_pos k (by norm_num)
      omega
    | succ m =>
      cases k with
      | zero => simp [natToCharsAux]
      | succ k2 =>
        simp only [natToCharsAux, List.length_append, List.length_cons, List.length_nil]
        have hq : 10 ^ k2 ≤ (m + 1) / 10 := by
          rw [Nat.le_div_iff_mul_le (by norm_num)]
          calc 10 ^ k2 * 10 = 10 ^ (k2 + 1) := by ring
          _ ≤ m + 1 := h
        have hfu : (m + 1) / 10 < fuel := by
          have := Nat.div_lt_self (Nat.succ_pos m) (show 1 < 10 by norm_num)
          omega
        have := ih ((m + 1) / 10) k2 hfu hq
        omega

theorem natToChars_length_le (n k : Nat) (hk : 1 ≤ k) (h : n < 10 ^ k) :
    (natToChars n).length ≤ k := by
  unfold natToChars
  split
  · simpa using hk
  · exact natToCharsAux_length_le (n + 1) n k (Nat.lt_succ_self n) h

theorem natToChars_length_gt (n k : Nat) (h : 10 ^ k ≤ n) : k < (natToChars n).length := by
  unfold natToChars
  split
  · rename_i h0
    subst h0
    have : 0 < 10 ^ k := Nat.pos_pow_of_pos k (by norm_num)
    omega
  · exact natToCharsAux_length_gt (n + 1) n k (Nat.lt_succ_self n) h

/- Suffix and candidate lemmas. -/

theorem sheetSuffix_length (i : Nat) : (sheetSuffix i).length = (natToChars i).length + 3 := by
  simp [sheetSuffix]

theorem sheetSuffix_length_ge (i : Nat) : 4 ≤ (sheetSuffix i).length := by
  rw [sheetSuffix_length]
  have := natToChars_ne_nil i
  have := List.length_pos.mpr this
  omega

theorem sheetSuffix_inj (i j : Nat) (h : sheetSuffix i = sheetSuffix j) : i = j := by
  simp only [sheetSuffix] at h
  injection h with _ h
  injection h with _ h
  obtain ⟨h1, _⟩ := append_singleton_inj _ _ _ _ h
  exact natToChars_inj _ _ h1

theorem head?_drop_eq {α : Type} (l : List α) (n : Nat) : (l.drop n).head? = l.get? n := by
  induction l generalizing n with
  | nil => simp
  | cons a l ih => cases n <;> simp [ih]

theorem sheetSuffix_get_ne_space (i k : Nat) (hk : 1 ≤ k) (x : Char)
    (hx : (sheetSuffix i).get? k = some x) : x ≠ ' ' := by
  have hmem : x ∈ '(' :: (natToChars i ++ [')']) := by
    match k, hk with
    | k + 1, _ =>
      have he : (sheetSuffix i).get? (k + 1) = ('(' :: (natToChars i ++ [')'])).get? k := rfl
      rw [he] at hx
      exact List.get?_mem hx
  rcases List.mem_cons.mp hmem with h | h
  · subst h; decide
  · rcases List.mem_append.mp h with h | h
    · obtain ⟨d, hd, rfl⟩ := natToChars_mem_digit i x h
      exact digitChar_ne_space d hd
    · simp only [List.mem_singleton] at h
      subst h; decide

theorem sheetCand_eq_append (orig : PyStr) (i : Nat) :
    ∃ p, sheetCand orig i = p ++ sheetSuffix i := by
  unfold sheetCand
  split
  · exact ⟨_, rfl⟩
  · exact ⟨orig, rfl⟩

theorem sheetCand_ne_nil (orig : PyStr) (i : Nat) : sheetCand orig i ≠ [] := by
  obtain ⟨p, hp⟩ := sheetCand_eq_append orig i
  rw [hp]
  simp [sheetSuffix]

theorem sheetCand_length_le (orig : PyStr) (i : Nat) (hs : (sheetSuffix i).length ≤ 31) :
    (sheetCand orig i).length ≤ 31 := by
  unfold sheetCand
  split
  · rename_i h
    have h0 : (0 : Int) ≤ 31 - ((sheetSuffix i).length : Int) := by
      have : ((sheetSuffix i).length : Int) ≤ 31 := by exact_mod_cast hs
      omega
    rw [pySliceTo, if_pos h0]
    simp only [List.length_append, List.length_take]
    have ht : ((31 : Int) - ((sheetSuffix i).length : Int)).toNat = 31 - (sheetSuffix i).length := by
      omega
    rw [ht]
    have := Nat.min_le_left (31 - (sheetSuffix i).length) orig.length
    omega
  · rename_i h
    push_neg at h
    simp only [List.length_append]
    omega

theorem sheetCand_drop (orig : PyStr) (i : Nat) :
    (sheetCand orig i).drop ((sheetCand orig i).length - (sheetSuffix i).length)
      = sheetSuffix i := by
  obtain ⟨p, hp⟩ := sheetCand_eq_append orig i
  rw [hp]
  simp only [List.length_append]
  have harith : p.length + (sheetSuffix i).length - (sheetSuffix i).length = p.length := by omega
  rw [harith, List.drop_left]

theorem sheetSuffix_le_cand_length (orig : PyStr) (i : Nat) :
    (sheetSuffix i).length ≤ (sheetCand orig i).length := by
  obtain ⟨p, hp⟩ := sheetCand_eq_append orig i
  rw [hp]
  simp [List.length_append]

theorem sheetCand_inj_le (orig : PyStr) (i j : Nat)
    (hle : (sheetSuffix i).length ≤ (sheetSuffix j).length)
    (h : sheetCand orig i = sheetCand orig j) : i = j := by
  by_cases heq : (sheetSuffix i).length = (sheetSuffix j).length
  · have d1 := sheetCand_drop orig i
    have d2 := sheetCand_drop orig j
    rw [h, heq] at d1
    rw [d2] at d1
    exact sheetSuffix_inj i j d1.symm
  · exfalso
    have hlt : (sheetSuffix i).length < (sheetSuffix j).length := lt_of_le_of_ne hle heq
    have d1 := sheetCand_drop orig i
    have d2 := sheetCand_drop orig j
    rw [h] at d1
    have hLj : (sheetSuffix j).length ≤ (sheetCand orig j).length :=
      sheetSuffix_le_cand_length orig j
    have harith : (sheetCand orig j).length - (sheetSuffix i).length
        = ((sheetCand orig j).length - (sheetSuffix j).length)
          + ((sheetSuffix j).length - (sheetSuffix i).length) := by omega
    rw [harith, ← List.drop_drop, d2] at d1
    have hh : ((sheetSuffix j).drop ((sheetSuffix j).length - (sheetSuffix i).length)).head?
        = some ' ' := by
      rw [d1]
      rfl
    rw [head?_drop_eq] at hh
    have hk : 1 ≤ (sheetSuffix j).length - (sheetSuffix i).length := by omega
    exact sheetSuffix_get_ne_space j _ hk ' ' hh rfl

theorem sheetCand_inj (orig : PyStr) (i j : Nat) (h : sheetCand orig i = sheetCand orig j) :
    i = j := by
  rcases le_total ((sheetSuffix i).length) ((sheetSuffix j).length) with hle | hle
  · exact sheetCand_inj_le orig i j hle h
  · exact (sheetCand_inj_le orig j i hle h.symm).symm

/- Fresh-name scan lemmas. -/

theorem freshLoop_shape (f : Nat → PyStr) (used : List PyStr) (i fuel : Nat) :
    ∃ j, i ≤ j ∧ j ≤ i + fuel ∧ freshLoop f used i fuel = f j := by
  induction fuel generalizing i with
  | zero => exact ⟨i, le_refl i, by omega, rfl⟩
  | succ fuel ih =>
    unfold freshLoop
    split
    · obtain ⟨j, h1, h2, h3⟩ := ih (i + 1)
      exact ⟨j, by omega, by omega, h3⟩
    · exact ⟨i, le_refl i, by omega, rfl⟩

theorem freshLoop_not_mem (f : Nat → PyStr) (used : List PyStr) (i fuel : Nat)
    (h : ∃ j, i ≤ j ∧ j < i + fuel ∧ f j ∉ used) :
    freshLoop f used i fuel ∉ used := by
  induction fuel generalizing i with
  | zero =>
    obtain ⟨j, h1, h2, _⟩ := h
    omega
  | succ fuel ih =>
    unfold freshLoop
    split
    · rename_i hmem
      apply ih (i + 1)
      obtain ⟨j, h1, h2, h3⟩ := h
      rcases eq_or_lt_of_le h1 with rfl | hlt
      · exact absurd hmem h3
      · exact ⟨j, hlt, by omega, h3⟩
    · rename_i hmem
      exact hmem

theorem freshLoop_least (f : Nat → PyStr) (used : List PyStr) (i fuel jstar : Nat)
    (hij : i ≤ jstar) (hwin : jstar < i + fuel)
    (hbefore : ∀ j, i ≤ j → j < jstar → f j ∈ used)
    (hfresh : f jstar ∉ used) :
    freshLoop f used i fuel = f jstar := by
  induction fuel generalizing i with
  | zero => omega
  | succ fuel ih =>
    unfold freshLoop
    rcases eq_or_lt_of_le hij with rfl | hlt
    · rw [if_neg hfresh]
    · rw [if_pos (hbefore i (le_refl i) hlt)]
      exact ih (i + 1) hlt (by omega) (fun j h1 h2 => hbefore j (by omega) h2)

theorem exists_fresh (f : Nat → PyStr) (hinj : ∀ a b, f a = f b → a = b)
    (used : List PyStr) (i : Nat) :
    ∃ j, i ≤ j ∧ j ≤ i + used.length ∧ f j ∉ used := by
  by_contra hc
  push_neg at hc
  have hmaps : ∀ j ∈ Finset.Icc i (i + used.length), f j ∈ used.toFinset := by
    intro j hj
    rw [Finset.mem_Icc] at hj
    rw [List.mem_toFinset]
    exact hc j hj.1 hj.2
  have hinj2 : Set.InjOn f (Finset.Icc i (i + used.length)) := fun a _ b _ h => hinj a b h
  have hcard := Finset.card_le_card_of_injOn f hmaps hinj2
  rw [Nat.card_Icc] at hcard
  have hle := used.toFinset_card_le
  omega

/- Sanitation and title-assignment properties. -/

theorem cleanTitle_ne_nil (s : PyStr) : cleanTitle s ≠ [] := by
  simp only [cleanTitle]
  by_cases h : ((if pyStrip s = [] then "Row".data else pyStrip s).map
      (fun c => if badTitleChar c then '-' else c)).take 31 = []
  · rw [if_pos h]
    simp
  · rw [if_neg h]
    exact h

theorem cleanTitle_length_le (s : PyStr) : (cleanTitle s).length ≤ 31 := by
  simp only [cleanTitle]
  by_cases h : ((if pyStrip s = [] then "Row".data else pyStrip s).map
      (fun c => if badTitleChar c then '-' else c)).take 31 = []
  · rw [if_pos h]
    simp
  · rw [if_neg h]
    simp only [List.length_take]
    exact Nat.min_le_left _ _

theorem safe_sheet_title_not_mem (s : PyStr) (used : List PyStr) :
    safe_sheet_title s used ∉ used := by
  unfold safe_sheet_title
  split
  · apply freshLoop_not_mem
    obtain ⟨j, h1, h2, h3⟩ :=
      exists_fresh (sheetCand (cleanTitle s)) (sheetCand_inj (cleanTitle s)) used 2
    exact ⟨j, h1, by omega, h3⟩
  · rename_i h
    exact h

theorem safe_sheet_title_shape (s : PyStr) (used : List PyStr) :
    safe_sheet_title s used = cleanTitle s
      ∨ ∃ j, 2 ≤ j ∧ j ≤ used.length + 3
          ∧ safe_sheet_title s used = sheetCand (cleanTitle s) j := by
  unfold safe_sheet_title
  split
  · right
    obtain ⟨j, h1, h2, h3⟩ := freshLoop_shape (sheetCand (cleanTitle s)) used 2 (used.length + 1)
    exact ⟨j, h1, by omega, h3⟩
  · left
    rfl

theorem safe_sheet_title_ne_nil (s : PyStr) (used : List PyStr) :
    safe_sheet_title s used ≠ [] := by
  rcases safe_sheet_title_shape s used with h | ⟨j, _, _, h⟩
  · rw [h]
    exact cleanTitle_ne_nil s
  · rw [h]
    exact sheetCand_ne_nil _ _

theorem safe_sheet_title_length_le (s : PyStr) (used : List PyStr)
    (hsmall : used.length + 3 < 10 ^ 28) :
    (safe_sheet_title s used).length ≤ 31 := by
  rcases safe_sheet_title_shape s used with h | ⟨j, hj2, hjb, h⟩
  · rw [h]
    exact cleanTitle_length_le s
  · rw [h]
    apply sheetCand_length_le
    rw [sheetSuffix_length]
    have hd : (natToChars j).length ≤ 28 := natToChars_length_le j 28 (by norm_num) (by omega)
    omega

theorem assignAux_nodup (ns : List PyStr) (used : List PyStr) :
    (assignAux ns used).Nodup ∧ ∀ t ∈ assignAux ns used, t ∉ used := by
  induction ns generalizing used with
  | nil => simp [assignAux]
  | cons n ns ih =>
    obtain ⟨ih1, ih2⟩ := ih (safe_sheet_title n used :: used)
    refine ⟨?_, ?_⟩
    · rw [show assignAux (n :: ns) used
          = safe_sheet_title n used :: assignAux ns (safe_sheet_title n used :: used) from rfl]
      rw [List.nodup_cons]
      refine ⟨?_, ih1⟩
      intro hmem
      exact ih2 _ hmem (List.mem_cons_self _ _)
    · intro t ht
      rw [show assignAux (n :: ns) used
          = safe_sheet_title n used :: assignAux ns (safe_sheet_title n used :: used) from rfl] at ht
      rcases List.mem_cons.mp ht with rfl | ht
      · exact safe_sheet_title_not_mem n used
      · intro htu
        exact ih2 t ht (List.mem_cons_of_mem _ htu)

theorem assignAux_ne_nil (ns : List PyStr) (used : List PyStr) :
    ∀ t ∈ assignAux ns used, t ≠ [] := by
  induction ns generalizing used with
  | nil => simp [assignAux]
  | cons n ns ih =>
    intro t ht
    rw [show assignAux (n :: ns) used
        = safe_sheet_title n used :: assignAux ns (safe_sheet_title n used :: used) from rfl] at ht
    rcases List.mem_cons.mp ht with rfl | ht
    · exact safe_sheet_title_ne_nil n used
    · exact ih _ t ht

theorem assignAux_length_le (ns : List PyStr) (used : List PyStr)
    (h : used.length + ns.length + 2 < 10 ^ 28) :
    ∀ t ∈ assignAux ns used, t.length ≤ 31 := by
  induction ns generalizing used with
  | nil => simp [assignAux]
  | cons n ns ih =>
    intro t ht
    rw [show assignAux (n :: ns) used
        = safe_sheet_title n used :: assignAux ns (safe_sheet_title n used :: used) from rfl] at ht
    rcases List.mem_cons.mp ht with rfl | ht
    · apply safe_sheet_title_length_le n used
      simp only [List.length_cons] at h
      omega
    · apply ih (safe_sheet_title n used :: used) ?_ t ht
      simp only [List.length_cons] at h ⊢
      omega

/-- C4 (amended): every title assigned in one request is non-empty and
distinct from every previously assigned title; each title is at most 31
characters long provided the request has at most 10^27 rows (with about
10^28 colliding rows the disambiguator suffix itself exceeds 31
characters and Python's negative-slice truncation yields an overlong
title, see the counterexample); on collision the suffix " (N)" starts
at N=2, so three rows named Maria receive Maria, Maria (2), Maria (3). -/
theorem C4_theorem :
    (∀ names : List PyStr, (assignTitles names).Nodup)
    ∧ (∀ names : List PyStr, ∀ t ∈ assignTitles names, t ≠ [])
    ∧ (∀ names : List PyStr, names.length ≤ 10 ^ 27 →
        ∀ t ∈ assignTitles names, t.length ≤ 31)
    ∧ assignTitles ["Maria".data, "Maria".data, "Maria".data]
        = ["Maria".data, "Maria (2)".data, "Maria (3)".data] := by
  refine ⟨?_, ?_, ?_, by decide⟩
  · intro names
    exact (assignAux_nodup names []).1
  · intro names t ht
    exact assignAux_ne_nil names [] t ht
  · intro names hlen t ht
    apply assignAux_length_le names [] ?_ t ht
    have h27 : (10 : Nat) ^ 27 + 2 < 10 ^ 28 := by norm_num
    simp only [List.length_nil]
    omega

/-- C4 witness: the amended theorem instantiated on the Maria request. -/
theorem C4_witness :
    ("Maria (2)".data : PyStr) ≠ [] ∧ ("Maria (2)".data : PyStr).length ≤ 31 := by
  refine ⟨?_, ?_⟩
  · exact C4_theorem.2.1 ["Maria".data, "Maria".data, "Maria".data] ("Maria (2)".data)
      (by decide)
  · exact C4_theorem.2.2.1 ["Maria".data, "Maria".data, "Maria".data] (by norm_num)
      ("Maria (2)".data) (by decide)

/- Trajectory of a request whose rows all carry the same name, used by
the C4 counterexample. -/

theorem cleanTitle_A : cleanTitle ("A".data) = "A".data := by decide

theorem sheetCand_A_ne_base (m : Nat) : sheetCand ("A".data) m ≠ "A".data := by
  intro h
  obtain ⟨p, hp⟩ := sheetCand_eq_append ("A".data) m
  have hlen : (sheetCand ("A".data) m).length = p.length + (sheetSuffix m).length := by
    rw [hp, List.length_append]
  have h4 := sheetSuffix_length_ge m
  rw [h] at hlen
  have h1 : ("A".data : PyStr).length = 1 := rfl
  omega

theorem titleStep (m : Nat) (used : List PyStr) (hm : 1 ≤ m)
    (hlen : used.length = m)
    (hmem : ∀ x, x ∈ used ↔
      (x = "A".data ∨ ∃ j, 2 ≤ j ∧ j ≤ m ∧ x = sheetCand ("A".data) j)) :
    safe_sheet_title ("A".data) used = sheetCand ("A".data) (m + 1) := by
  unfold safe_sheet_title
  rw [cleanTitle_A]
  rw [if_pos ((hmem _).mpr (Or.inl rfl))]
  refine freshLoop_least _ _ _ _ (m + 1) (by omega) (by omega) ?_ ?_
  · intro j h2 hj
    exact (hmem _).mpr (Or.inr ⟨j, h2, by omega, rfl⟩)
  · intro hcontra
    rcases (hmem _).mp hcontra with h | ⟨j, hj2, hjm, hj⟩
    · exact sheetCand_A_ne_base (m + 1) h
    · have := sheetCand_inj _ _ _ hj
      omega

theorem assignAux_replicate (k : Nat) : ∀ (m : Nat) (used : List PyStr), 1 ≤ m →
    used.length = m →
    (∀ x, x ∈ used ↔
      (x = "A".data ∨ ∃ j, 2 ≤ j ∧ j ≤ m ∧ x = sheetCand ("A".data) j)) →
    assignAux (List.replicate k ("A".data)) used
      = (natRange (m + 1) k).map (sheetCand ("A".data)) := by
  induction k with
  | zero =>
    intro m used _ _ _
    simp [assignAux, natRange]
  | succ k ih =>
    intro m used hm hlen hmem
    rw [List.replicate_succ]
    rw [show assignAux (("A".data) :: List.replicate k ("A".data)) used
        = safe_sheet_title ("A".data) used
          :: assignAux (List.replicate k ("A".data)) (safe_sheet_title ("A".data) used :: used)
        from rfl]
    rw [titleStep m used hm hlen hmem]
    rw [ih (m + 1) (sheetCand ("A".data) (m + 1) :: used) (by omega) (by simp [hlen]) ?_]
    · rw [show natRange (m + 1) (k + 1) = (m + 1) :: natRange (m + 2) k from rfl]
      simp
    · intro x
      simp only [List.mem_cons, hmem]
      constructor
      · rintro (rfl | h | ⟨j, hj2, hjm, hj⟩)
        · exact Or.inr ⟨m + 1, by omega, by omega, rfl⟩
        · exact Or.inl h
        · exact Or.inr ⟨j, hj2, by omega, hj⟩
      · rintro (h | ⟨j, hj2, hjm, hj⟩)
        · exact Or.inr (Or.inl h)
        · by_cases hje : j = m + 1
          · subst hje
            exact Or.inl hj
          · exact Or.inr (Or.inr ⟨j, hj2, by omega, hj⟩)

theorem assignTitles_replicate (N : Nat) (h2 : 2 ≤ N) :
    assignTitles (List.replicate N ("A".data))
      = "A".data :: (natRange 2 (N - 1)).map (sheetCand ("A".data)) := by
  obtain ⟨M, rfl⟩ : ∃ M, N = M + 1 := ⟨N - 1, by omega⟩
  unfold assignTitles
  rw [List.replicate_succ]
  rw [show assignAux (("A".data) :: List.replicate M ("A".data)) []
      = safe_sheet_title ("A".data) []
        :: assignAux (List.replicate M ("A".data)) (safe_sheet_title ("A".data) [] :: []) from rfl]
  have h1 : safe_sheet_title ("A".data) ([] : List PyStr) = "A".data := by decide
  rw [h1]
  rw [assignAux_replicate M 1 ["A".data] (le_refl 1) rfl ?_]
  · simp
  · intro x
    simp only [List.mem_singleton]
    constructor
    · intro h
      exact Or.inl h
    · rintro (h | ⟨j, hj2, hjm, hj⟩)
      · exact h
      · omega

theorem natToChars_big_length : (natToChars (10 ^ 28)).length = 29 := by
  have h1 : 28 < (natToChars (10 ^ 28)).length := natToChars_length_gt _ 28 (le_refl _)
  have h2 : (natToChars (10 ^ 28)).length ≤ 29 :=
    natToChars_length_le _ 29 (by norm_num) (by norm_num)
  omega

theorem sheetCand_big_length : 31 < (sheetCand ("A".data) (10 ^ 28)).length := by
  have hs : (sheetSuffix (10 ^ 28)).length = 32 := by
    rw [sheetSuffix_length, natToChars_big_length]
  unfold sheetCand
  split
  · simp only [List.length_append]
    omega
  · rename_i h
    rw [hs] at h
    have h1 : ("A".data : PyStr).length = 1 := rfl
    omega

/-- C4 counterexample: in a request of 10^28 rows all named A, the last
assigned title carries the 32-character suffix " (10000000000000000000000000000)"
and is longer than 31 characters, refuting the claim's unconditional
31-character bound (every other part of the claim survives). -/
theorem C4_counterexample :
    sheetCand ("A".data) (10 ^ 28) ∈ assignTitles (List.replicate (10 ^ 28) ("A".data))
    ∧ 31 < (sheetCand ("A".data) (10 ^ 28)).length := by
  constructor
  · rw [assignTitles_replicate (10 ^ 28) (by norm_num)]
    apply List.mem_cons_of_mem
    apply List.mem_map_of_mem
    rw [mem_natRange]
    have hp : 2 ≤ (10 : Nat) ^ 28 := by norm_num
    omega
  · exact sheetCand_big_length

/- ----------------------------------------------------------------
   C10: the default mapping is never mutated.
   ---------------------------------------------------------------- -/

/-- C10: handling a request never mutates the module-level
DEFAULT_MAPPING: the per-request mapping is DEFAULT_MAPPING.copy()
updated with the parsed JSON, and DEFAULT_MAPPING holds exactly the
same entries after every request as before it. -/
theorem C10_theorem (d : Mapping) (req : GenRequest) (env : ServerEnv) :
    (generate_excel d req env).2 = d
    ∧ (∀ raw m, requestMapping d (some (raw, .ok m))
        = if pyStrip raw = [] then .ok d else .ok (dictUpdate d m)) := by
  constructor
  · unfold generate_excel
    repeat' first
      | rfl
      | split
  · intro raw m
    by_cases h : pyStrip raw = []
    · simp [requestMapping, h]
    · simp [requestMapping, h]

/- ----------------------------------------------------------------
   C9: fewer than two sheets means a 400 error.
   ---------------------------------------------------------------- -/

/-- C9: a request whose uploaded workbook parses to fewer than two
sheets is answered with status 400 and a JSON error body, never with a
file — whichever validation fires first on such a request, the outcome
is a 400 error. -/
theorem C9_theorem (d : Mapping) (req : GenRequest) (env : ServerEnv)
    (f : UploadedFile) (xl : List (PyStr × DataFrame))
    (hf : req.file = some f) (hp : f.parsed = .ok xl) (hlen : xl.length < 2) :
    ∃ msg, (generate_excel d req env).1 = .error 400 msg := by
  unfold generate_excel
  rw [hf]
  dsimp only
  by_cases hext : hasExcelExt f.filename = false
  · rw [if_pos hext]
    exact ⟨_, rfl⟩
  · rw [if_neg hext]
    cases hm : requestMapping d req.mappingForm with
    | error e => exact ⟨_, rfl⟩
    | ok mapping =>
      rw [hp]
      rcases xl with _ | ⟨s1, _ | ⟨s2, tail⟩⟩
      · exact ⟨_, rfl⟩
      · exact ⟨_, rfl⟩
      · simp only [List.length_cons] at hlen
        omega

/-- C9 witness: a well-formed request carrying a one-sheet workbook. -/
theorem C9_witness :
    ∃ msg, (generate_excel []
      { file := some { filename := "a.xlsx".data,
                       parsed := .ok [("S1".data, { cols := [], rows := [] })] },
        mappingForm := none }
      { templateExists := true, templateWb := .error [], copyFails := fun _ => false }).1
      = .error 400 msg :=
  C9_theorem [] _ _ _ _ rfl rfl (by decide)

/- ----------------------------------------------------------------
   C8: the fallback copy path.
   ---------------------------------------------------------------- -/

theorem map_eq_self_of {α : Type} (l : List α) (f : α → α) (h : ∀ a ∈ l, f a = a) :
    l.map f = l := by
  induction l with
  | nil => rfl
  | cons a l ih =>
    simp only [List.map_cons]
    rw [h a (List.mem_cons_self a l), ih (fun b hb => h b (List.mem_cons_of_mem a hb))]

theorem foldl_appendStep (l acc : List PyStr) : l.foldl appendStep acc = acc ++ l := by
  induction l generalizing acc with
  | nil => simp
  | cons a l ih => simp [appendStep, ih]

theorem lookupA_setStep_ne {κ α : Type} [DecidableEq κ] (f : κ → Option α)
    (m : List (κ × α)) (k q : κ) (h : ¬ k = q) :
    lookupA (setStep f m k) q = lookupA m q := by
  unfold setStep
  cases hf : f k with
  | none => rfl
  | some v => rw [lookupA_assocSet, if_neg h]

theorem foldl_setStep_untouched {κ α : Type} [DecidableEq κ] (f : κ → Option α)
    (l : List κ) (acc : List (κ × α)) (p : κ) (hp : p ∉ l) :
    lookupA (l.foldl (setStep f) acc) p = lookupA acc p := by
  induction l generalizing acc with
  | nil => rfl
  | cons k l ih =>
    simp only [List.foldl_cons]
    have hpl : p ∉ l := fun h => hp (List.mem_cons_of_mem _ h)
    have hne : ¬ k = p := fun h => hp (h ▸ List.mem_cons_self k l)
    rw [ih _ hpl, lookupA_setStep_ne f acc k p hne]

theorem SetInv_step {κ α : Type} [DecidableEq κ] (f : κ → Option α) (acc : List (κ × α))
    (k : κ) (h : SetInv f acc) : SetInv f (setStep f acc k) := by
  intro q hq
  by_cases hkq : k = q
  · subst hkq
    unfold setStep at hq ⊢
    cases hf : f k with
    | none =>
      rw [hf] at hq
      dsimp only at hq ⊢
      have h2 := h k hq
      rw [h2, hf]
    | some v =>
      dsimp only
      rw [lookupA_assocSet]
      simp
  · rw [lookupA_setStep_ne f acc k q hkq] at hq ⊢
    exact h q hq

theorem foldl_setStep_mem {κ α : Type} [DecidableEq κ] (f : κ → Option α)
    (l : List κ) (acc : List (κ × α)) (hacc : SetInv f acc) (p : κ) (hp : p ∈ l) :
    lookupA (l.foldl (setStep f) acc) p = f p := by
  induction l generalizing acc with
  | nil => cases hp
  | cons k l ih =>
    simp only [List.foldl_cons]
    by_cases hpl : p ∈ l
    · exact ih _ (SetInv_step f acc k hacc) hpl
    · have hpk : p = k := by
        rcases List.mem_cons.mp hp with h | h
        · exact h
        · exact absurd h hpl
      subst hpk
      rw [foldl_setStep_untouched f l _ p hpl]
      unfold setStep
      cases hf : f p with
      | none =>
        dsimp only
        by_cases ha : lookupA acc p = none
        · exact ha
        · have h2 := hacc p ha
          rw [hf] at h2
          exact absurd h2 ha
      | some v =>
        dsimp only
        rw [lookupA_assocSet]
        simp

theorem mem_gridAux (rs : List Nat) (maxC r c : Nat) :
    ((r, c) ∈ rs.foldr (fun r2 acc => ((natRange 1 maxC).map (fun c2 => (r2, c2))) ++ acc) [])
      ↔ (r ∈ rs ∧ c ∈ natRange 1 maxC) := by
  induction rs with
  | nil => simp
  | cons a rs ih =>
    simp only [List.foldr_cons, List.mem_append, List.mem_map, List.mem_cons, ih]
    constructor
    · rintro (⟨c2, hc2, heq⟩ | ⟨hr, hc⟩)
      · injection heq with ha hcq
        subst ha
        subst hcq
        exact ⟨Or.inl rfl, hc2⟩
      · exact ⟨Or.inr hr, hc⟩
    · rintro ⟨rfl | hr, hc⟩
      · exact Or.inl ⟨c, hc, rfl⟩
      · exact Or.inr ⟨hr, hc⟩

theorem mem_gridPairs (maxR maxC r c : Nat) :
    ((r, c) ∈ gridPairs maxR maxC) ↔ (r ∈ natRange 1 maxR ∧ c ∈ natRange 1 maxC) :=
  mem_gridAux _ _ _ _

/-- C8: when the primary structural copy raises, the exception is
caught and the fallback path runs to completion — the whole function is
total, so sheet cloning never aborts the request: a new sheet is
appended whose title is the requested one passed through openpyxl's
duplicate-avoiding setter (the requested title itself whenever it is
unused), whose merged ranges are exactly the template's, and whose
cells agree with the template's non-None cells on every coordinate of
the template grid. -/
theorem C8_theorem (wb : Workbook) (tpl : Sheet) (newTitle : PyStr)
    (hwf : ∀ s ∈ wb.sheets, s.id < wb.nextId) :
    ∃ s : Sheet,
      (copy_template_sheet_with_fallback wb tpl newTitle true).sheets = wb.sheets ++ [s]
      ∧ s.title = avoidDuplicateName (sheetTitles wb) newTitle
      ∧ (newTitle ∉ sheetTitles wb → s.title = newTitle)
      ∧ s.merges = tpl.merges
      ∧ (∀ r c, r ∈ natRange 1 tpl.maxRow → c ∈ natRange 1 tpl.maxCol →
          cellLookup s (r, c) = cellLookup tpl (r, c)) := by
  refine ⟨{ id := wb.nextId,
            title := avoidDuplicateName (sheetTitles wb) newTitle,
            merges := tpl.merges.foldl appendStep [],
            cells := (gridPairs tpl.maxRow tpl.maxCol).foldl (setStep (cellLookup tpl)) [],
            maxRow := tpl.maxRow, maxCol := tpl.maxCol }, ?_, rfl, ?_, ?_, ?_⟩
  · show (copy_template_sheet_with_fallback wb tpl newTitle true).sheets = _
    unfold copy_template_sheet_with_fallback create_sheet
    rw [if_pos rfl]
    simp only [List.map_append]
    rw [map_eq_self_of wb.sheets _ ?_]
    · simp
    · intro s hs
      have := hwf s hs
      rw [if_neg (by omega)]
  · intro h
    unfold avoidDuplicateName
    rw [if_neg h]
  · show tpl.merges.foldl appendStep [] = tpl.merges
    rw [foldl_appendStep]
    simp
  · intro r c hr hc
    show lookupA ((gridPairs tpl.maxRow tpl.maxCol).foldl (setStep (cellLookup tpl)) []) (r, c)
      = cellLookup tpl (r, c)
    apply foldl_setStep_mem
    · intro q hq
      exact absurd rfl hq
    · exact (mem_gridPairs tpl.maxRow tpl.maxCol r c).mpr ⟨hr, hc⟩

/-- C8 witness: the theorem applied to a concrete one-cell template. -/
theorem C8_witness :
    ∃ s : Sheet,
      (copy_template_sheet_with_fallback wbW tplW ("T2".data) true).sheets = wbW.sheets ++ [s]
      ∧ s.title = avoidDuplicateName (sheetTitles wbW) ("T2".data)
      ∧ (("T2".data) ∉ sheetTitles wbW → s.title = "T2".data)
      ∧ s.merges = tplW.merges
      ∧ (∀ r c, r ∈ natRange 1 tplW.maxRow → c ∈ natRange 1 tplW.maxCol →
          cellLookup s (r, c) = cellLookup tplW (r, c)) :=
  C8_theorem wbW tplW ("T2".data) (by simp [wbW])

theorem avoidDuplicateName_not_mem (names : List PyStr) (value : PyStr) :
    avoidDuplicateName names value ∉ names := by
  unfold avoidDuplicateName
  split
  · have hinj : ∀ a b : Nat, value ++ natToChars a = value ++ natToChars b → a = b := by
      intro a b h
      exact natToChars_inj a b (List.append_cancel_left h)
    apply freshLoop_not_mem
    obtain ⟨j, h1, h2, h3⟩ := exists_fresh (fun j => value ++ natToChars j) hinj names 1
    exact ⟨j, h1, by omega, h3⟩
  · rename_i h
    exact h

theorem avoidDuplicateName_ne (names : List PyStr) (value t : PyStr) (h : t ∈ names) :
    avoidDuplicateName names value ≠ t :=
  fun he => avoidDuplicateName_not_mem names value (he ▸ h)

theorem WbInv_tplTitle_mem (tplId : Nat) (tplTitle : PyStr) (wb : Workbook)
    (h : WbInv tplId tplTitle wb) : tplTitle ∈ sheetTitles wb := by
  obtain ⟨⟨s0, hs0, _, htl0⟩, _, _⟩ := h
  rw [← htl0]
  exact List.mem_map_of_mem Sheet.title hs0

theorem WbInv_tplId_lt (tplId : Nat) (tplTitle : PyStr) (wb : Workbook)
    (h : WbInv tplId tplTitle wb) : tplId < wb.nextId := by
  obtain ⟨⟨s0, hs0, hid0, _⟩, _, h3⟩ := h
  have := h3 s0 hs0
  omega

/-- Appending a sheet with the fresh id and a title different from the
template's preserves the invariant. -/
theorem WbInv_append_fresh (tplId : Nat) (tplTitle : PyStr) (wb : Workbook) (snew : Sheet)
    (h : WbInv tplId tplTitle wb) (hid : snew.id = wb.nextId) (htl : snew.title ≠ tplTitle) :
    WbInv tplId tplTitle { sheets := wb.sheets ++ [snew], nextId := wb.nextId + 1 } := by
  obtain ⟨⟨s0, hs0, hid0, htl0⟩, h2, h3⟩ := h
  refine ⟨⟨s0, List.mem_append_left _ hs0, hid0, htl0⟩, ?_, ?_⟩
  · intro s hs hsid
    rcases List.mem_append.mp hs with hs | hs
    · exact h2 s hs hsid
    · rw [List.mem_singleton.mp hs]
      exact htl
  · intro s hs
    rcases List.mem_append.mp hs with hs | hs
    · have := h3 s hs
      simp only []
      omega
    · rw [List.mem_singleton.mp hs]
      simp only [hid]
      omega

/-- Mapping the sheets with a function that keeps ids, leaves the
template sheet alone, and never retitles another sheet to the
template's title preserves the invariant. -/
theorem WbInv_map_keep (tplId : Nat) (tplTitle : PyStr) (wb : Workbook) (g : Sheet → Sheet)
    (hg_id : ∀ s, (g s).id = s.id)
    (hg_tpl : ∀ s ∈ wb.sheets, s.id = tplId → g s = s)
    (hg_title : ∀ s ∈ wb.sheets, s.id ≠ tplId → ((g s).title = s.title ∨ (g s).title ≠ tplTitle))
    (h : WbInv tplId tplTitle wb) :
    WbInv tplId tplTitle { wb with sheets := wb.sheets.map g } := by
  obtain ⟨⟨s0, hs0, hid0, htl0⟩, h2, h3⟩ := h
  refine ⟨⟨s0, ?_, hid0, htl0⟩, ?_, ?_⟩
  · rw [← hg_tpl s0 hs0 hid0]
    exact List.mem_map_of_mem g hs0
  · intro x hx hxid
    obtain ⟨s, hs, rfl⟩ := List.mem_map.mp hx
    rw [hg_id s] at hxid
    rcases hg_title s hs hxid with heq | hne
    · rw [heq]
      exact h2 s hs hxid
    · exact hne
  · intro x hx
    obtain ⟨s, hs, rfl⟩ := List.mem_map.mp hx
    rw [hg_id s]
    exact h3 s hs

theorem WbInv_copy_worksheet (tplId : Nat) (tplTitle : PyStr) (wb : Workbook) (src : Sheet)
    (h : WbInv tplId tplTitle wb) : WbInv tplId tplTitle (copy_worksheet wb src) := by
  apply WbInv_append_fresh tplId tplTitle wb _ h rfl
  exact avoidDuplicateName_ne _ _ _ (WbInv_tplTitle_mem tplId tplTitle wb h)

theorem WbInv_create_sheet (tplId : Nat) (tplTitle : PyStr) (wb : Workbook) (t : PyStr)
    (h : WbInv tplId tplTitle wb) : WbInv tplId tplTitle (create_sheet wb t) := by
  apply WbInv_append_fresh tplId tplTitle wb _ h rfl
  exact avoidDuplicateName_ne _ _ _ (WbInv_tplTitle_mem tplId tplTitle wb h)

theorem WbInv_setSheetTitle (tplId : Nat) (tplTitle : PyStr) (wb : Workbook) (sid : Nat)
    (t : PyStr) (h : WbInv tplId tplTitle wb) (hne : tplId ≠ sid) :
    WbInv tplId tplTitle (setSheetTitle wb sid t) := by
  apply WbInv_map_keep tplId tplTitle wb _ ?_ ?_ ?_ h
  · intro s
    by_cases hs : s.id = sid <;> simp [hs]
  · intro s _ hsid
    rw [if_neg]
    rw [hsid]
    exact hne
  · intro s hs hsid
    by_cases hsd : s.id = sid
    · right
      rw [if_pos hsd]
      show avoidDuplicateName _ t ≠ tplTitle
      apply avoidDuplicateName_ne
      obtain ⟨⟨s0, hs0, hid0, htl0⟩, _, _⟩ := h
      rw [← htl0]
      apply List.mem_map_of_mem
      rw [List.mem_filter]
      refine ⟨hs0, ?_⟩
      simp only [decide_eq_true_eq]
      rw [hid0]
      exact hne
    · left
      rw [if_neg hsd]

theorem WbInv_copy_fallback (tplId : Nat) (tplTitle : PyStr) (wb : Workbook) (tpl0 : Sheet)
    (t : PyStr) (fails : Bool) (h : WbInv tplId tplTitle wb) :
    WbInv tplId tplTitle (copy_template_sheet_with_fallback wb tpl0 t fails) := by
  have hlt := WbInv_tplId_lt tplId tplTitle wb h
  unfold copy_template_sheet_with_fallback
  split
  · apply WbInv_map_keep tplId tplTitle (create_sheet wb t) _ ?_ ?_ ?_
      (WbInv_create_sheet tplId tplTitle wb t h)
    · intro s
      by_cases hs : s.id = wb.nextId <;> simp [hs]
    · intro s _ hsid
      rw [if_neg]
      rw [hsid]
      omega
    · intro s _ _
      left
      by_cases hs : s.id = wb.nextId <;> simp [hs]
  · apply WbInv_setSheetTitle tplId tplTitle _ wb.nextId t
      (WbInv_copy_worksheet tplId tplTitle wb tpl0 h)
    omega

/-- Mapping the sheets with a function preserving every sheet's id and
title preserves the invariant. -/
theorem WbInv_map_preserve (tplId : Nat) (tplTitle : PyStr) (wb : Workbook) (g : Sheet → Sheet)
    (hg_id : ∀ s, (g s).id = s.id) (hg_title : ∀ s, (g s).title = s.title)
    (h : WbInv tplId tplTitle wb) :
    WbInv tplId tplTitle { wb with sheets := wb.sheets.map g } := by
  obtain ⟨⟨s0, hs0, hid0, htl0⟩, h2, h3⟩ := h
  refine ⟨⟨g s0, List.mem_map_of_mem g hs0, ?_, ?_⟩, ?_, ?_⟩
  · rw [hg_id, hid0]
  · rw [hg_title, htl0]
  · intro x hx hxid
    obtain ⟨s, hs, rfl⟩ := List.mem_map.mp hx
    rw [hg_id s] at hxid
    rw [hg_title s]
    exact h2 s hs hxid
  · intro x hx
    obtain ⟨s, hs, rfl⟩ := List.mem_map.mp hx
    rw [hg_id s]
    exact h3 s hs

theorem WbInv_replaceInWorkbook (tplId : Nat) (tplTitle : PyStr) (wb : Workbook) (sid : Nat)
    (mapping : Mapping) (row : Row) (h : WbInv tplId tplTitle wb) :
    WbInv tplId tplTitle (replaceInWorkbook wb sid mapping row) := by
  apply WbInv_map_preserve tplId tplTitle wb _ ?_ ?_ h
  · intro s
    by_cases hs : s.id = sid <;> simp [hs, replace_placeholders_in_worksheet]
  · intro s
    by_cases hs : s.id = sid <;> simp [hs, replace_placeholders_in_worksheet]

theorem WbInv_processRow (tplId : Nat) (tplTitle : PyStr) (mapping : Mapping)
    (grades : DataFrame) (tpl0 : Sheet) (fails : Bool) (st : LoopState) (idx : Nat) (row : Row)
    (st2 : LoopState) (h : WbInv tplId tplTitle st.wb)
    (hp : processRow mapping grades tpl0 fails st idx row = .ok st2) :
    WbInv tplId tplTitle st2.wb := by
  unfold processRow at hp
  cases hcol : colForName mapping with
  | ctx d =>
    rw [hcol] at hp
    cases hp
  | flat c =>
    rw [hcol] at hp
    dsimp only at hp
    by_cases hmem : c ∈ grades.cols
    · rw [if_pos hmem] at hp
      injection hp with hp
      rw [← hp]
      exact WbInv_replaceInWorkbook tplId tplTitle _ _ mapping _
        (WbInv_copy_fallback tplId tplTitle st.wb tpl0 _ fails h)
    · rw [if_neg hmem] at hp
      cases hp

theorem WbInv_processRows (tplId : Nat) (tplTitle : PyStr) (mapping : Mapping)
    (grades : DataFrame) (tpl0 : Sheet) (oracle : Nat → Bool) :
    ∀ (rows : List Row) (st : LoopState) (idx : Nat) (st2 : LoopState),
    WbInv tplId tplTitle st.wb →
    processRows mapping grades tpl0 oracle st idx rows = .ok st2 →
    WbInv tplId tplTitle st2.wb := by
  intro rows
  induction rows with
  | nil =>
    intro st idx st2 hinv h
    injection h with h
    rw [← h]
    exact hinv
  | cons r rs ih =>
    intro st idx st2 hinv h
    unfold processRows at h
    cases hx : processRow mapping grades tpl0 (oracle idx) st idx r with
    | error e =>
      rw [hx] at h
      cases h
    | ok stm =>
      rw [hx] at h
      exact ih stm (idx + 1) st2
        (WbInv_processRow tplId tplTitle mapping grades tpl0 _ st idx r stm hinv hx) h

theorem removeSheet_no_template (tplId : Nat) (tplTitle : PyStr) (wb : Workbook)
    (h : WbInv tplId tplTitle wb) :
    (∀ s ∈ (removeSheet wb tplId).sheets, s.id ≠ tplId)
    ∧ (∀ s ∈ (removeSheet wb tplId).sheets, s.title ≠ tplTitle) := by
  constructor <;> intro s hs <;> unfold removeSheet at hs <;>
    rw [List.mem_filter] at hs
  · have := hs.2
    simp only [decide_eq_true_eq] at this
    exact this
  · have hid : s.id ≠ tplId := by
      have := hs.2
      simp only [decide_eq_true_eq] at this
      exact this
    exact h.2.1 s hs.1 hid

/-- C7: for every successful generate request the returned workbook
contains neither the original template worksheet (identified by object
identity) nor any sheet bearing the template sheet's title; the
hypotheses state what holding a real openpyxl workbook guarantees:
sheet ids below the fresh-id counter and the template's title not
repeated by the other template-file sheets. -/
theorem C7_theorem (d : Mapping) (req : GenRequest) (env : ServerEnv)
    (twb : Workbook) (tpl : Sheet) (rest : List Sheet) (out : Workbook)
    (htw : env.templateWb = .ok twb)
    (hsheets : twb.sheets = tpl :: rest)
    (hids : ∀ s ∈ twb.sheets, s.id < twb.nextId)
    (htitles : tpl.title ∉ rest.map Sheet.title)
    (hout : (generate_excel d req env).1 = .fileOut out) :
    (∀ s ∈ out.sheets, s.id ≠ tpl.id) ∧ (∀ s ∈ out.sheets, s.title ≠ tpl.title) := by
  unfold generate_excel at hout
  rcases hfl : req.file with _ | f
  · rw [hfl] at hout
    cases hout
  rw [hfl] at hout
  dsimp only at hout
  by_cases hext : hasExcelExt f.filename = false
  · rw [if_pos hext] at hout
    cases hout
  rw [if_neg hext] at hout
  rcases hm : requestMapping d req.mappingForm with e | mapping
  · rw [hm] at hout
    cases hout
  rw [hm] at hout
  dsimp only at hout
  rcases hpar : f.parsed with e | xl
  · rw [hpar] at hout
    cases hout
  rw [hpar] at hout
  dsimp only at hout
  rcases xl with _ | ⟨s1, _ | ⟨s2, tail⟩⟩
  · cases hout
  · cases hout
  dsimp only at hout
  by_cases hempty : s1.2.rows.isEmpty = true
  · rw [if_pos hempty] at hout
    cases hout
  rw [if_neg hempty] at hout
  by_cases htex : env.templateExists = false
  · rw [if_pos htex] at hout
    cases hout
  rw [if_neg htex] at hout
  rw [htw] at hout
  dsimp only at hout
  rw [hsheets] at hout
  dsimp only at hout
  cases hrun : processRows mapping s2.2 tpl env.copyFails { wb := twb, used := [] } 0 s1.2.rows with
  | error e =>
    rw [hrun] at hout
    cases hout
  | ok st =>
    rw [hrun] at hout
    dsimp only at hout
    injection hout with hout
    have hinv0 : WbInv tpl.id tpl.title twb := by
      refine ⟨⟨tpl, ?_, rfl, rfl⟩, ?_, ?_⟩
      · rw [hsheets]
        exact List.mem_cons_self tpl rest
      · intro s hs hsid
        rw [hsheets] at hs
        rcases List.mem_cons.mp hs with rfl | hs
        · exact absurd rfl hsid
        · intro hteq
          apply htitles
          rw [← hteq]
          exact List.mem_map_of_mem Sheet.title hs
      · exact hids
    have hinv := WbInv_processRows tpl.id tpl.title mapping s2.2 tpl env.copyFails
      s1.2.rows { wb := twb, used := [] } 0 st hinv0 hrun
    rw [← hout]
    exact removeSheet_no_template tpl.id tpl.title st.wb hinv

/-- C7 witness: the theorem applied to a concrete one-row request whose
output workbook holds exactly one generated sheet. -/
theorem C7_witness : anaSheetW.title ≠ tplSheetW.title :=
  (C7_theorem [] reqW envW twbW tplSheetW [] outW rfl rfl (by decide) (by simp) rfl).2
    anaSheetW (by simp [outW])

/-- C2 witness: the characterization applied to a concrete trigger cell. -/
theorem C2_witness :
    cellContext ("Elementary Year Last Attended".data) = some ("ELEMENTARY".data) := by
  have h := C2_theorem ("Elementary Year Last Attended".data) [] []
  exact h.1.mpr (by constructor <;> decide)

/-- C10 witness: the preservation equation at a concrete request. -/
theorem C10_witness : (generate_excel [] reqW envW).2 = [] :=
  (C10_theorem [] reqW envW).1

end Creotec
